import Mathlib

/-!
# SynapseX — verification of the session and topology engine

A shallow embedding, in Lean 4, of the parts of the SynapseX p2p node that
the specification's testable properties talk about:

* the message envelope (`pkg/p2p/message.go`): `Validate`, `Serialize`,
  `DeserializeMessage`;
* the connection pool (`pkg/p2p/pool.go`): `AddConnection` and its capacity
  check;
* the topology manager (`pkg/p2p/topology/manager.go`): `AddPeer`,
  `GetPeerInfo`, `UpdatePeerReputation`, `calculateQualityScore`,
  `GetBestPeers`;
* the reputation system (`pkg/p2p/topology/reputation.go`):
  `UpdateReputationBasedOnBehavior`, `UpdateReputationBasedOnPerformance`,
  `UpdateReputationBasedOnReliability`, `DecayReputation`;
* the handshake (`pkg/p2p/crypto/handshake.go`): `VerifyHandshakeMessage`;
* the secure handshake protocol (`pkg/p2p/network.go`):
  `performSecureHandshake` / `registerPeer`, modelled as a trace of events.

Conventions of the embedding:

* Go `float64` arithmetic is modelled with exact rationals (`ℚ`); the
  constants involved (0.7, 0.3, 100, …) and the claims are about the
  arithmetic, not about rounding.
* Go `time.Duration` values are modelled as rational numbers of seconds
  (the code always converts with `float64(d)/float64(time.Second)` before
  using them arithmetically); Unix timestamps are `Int` seconds.
* A Go `map[string]T` is modelled as an association list
  `List (String × T)` with overwrite-on-insert semantics.  Go randomises
  map iteration order, so the order of the association list stands for the
  (arbitrary) iteration order of one particular run: two lists that are
  permutations of each other denote the same map.
* RSA keys and signatures are opaque: the functions `UnmarshalPublicKey`
  and `VerifySignature` from `pkg/p2p/crypto/encrypt.go` are abstracted as
  parameters of `VerifyHandshakeMessage`.
-/

namespace SynapseX

/-- Overwrite-or-append insertion into an association list: the meaning of
`m[k] = v` on a Go map (an existing key keeps its position in the
iteration order; a new key is appended). -/
def mapInsert {β : Type} : List (String × β) → String → β → List (String × β)
  | [], k, v => [(k, v)]
  | p :: t, k, v => if p.1 = k then (k, v) :: t else p :: mapInsert t k v

/-- Lookup in an association list: the meaning of `m[k]` / `m[k], ok` on a
Go map. -/
def mapFind {β : Type} : List (String × β) → String → Option β
  | [], _ => none
  | p :: t, k => if p.1 = k then some p.2 else mapFind t k

/-- `delete(m, k)` on a Go map. -/
def mapErase {β : Type} (l : List (String × β)) (k : String) :
    List (String × β) :=
  l.filter (fun p => ¬ p.1 = k)

theorem mapFind_mapInsert_self {β : Type} (l : List (String × β))
    (k : String) (v : β) : mapFind (mapInsert l k v) k = some v := by
  induction l with
  | nil => simp [mapInsert, mapFind]
  | cons p t ih =>
    by_cases hp : p.1 = k
    · simp [mapInsert, mapFind, hp]
    · simp [mapInsert, mapFind, hp, ih]

theorem mapFind_mapInsert_ne {β : Type} (l : List (String × β))
    (k k' : String) (v : β) (h : k ≠ k') :
    mapFind (mapInsert l k v) k' = mapFind l k' := by
  induction l with
  | nil => simp [mapInsert, mapFind, h]
  | cons p t ih =>
    by_cases hp : p.1 = k
    · simp [mapInsert, mapFind, hp, h]
    · by_cases hp' : p.1 = k'
      · simp [mapInsert, mapFind, hp, hp', Ne.symm h]
      · simp [mapInsert, mapFind, hp, hp', ih]

theorem mapInsert_length_of_isSome {β : Type} (l : List (String × β))
    (k : String) (v : β) (h : (mapFind l k).isSome = true) :
    (mapInsert l k v).length = l.length := by
  induction l with
  | nil => simp [mapFind] at h
  | cons p t ih =>
    by_cases hp : p.1 = k
    · simp [mapInsert, hp]
    · simp only [mapFind, if_neg hp] at h
      simp only [mapInsert, if_neg hp, List.length_cons]
      rw [ih h]

theorem mapInsert_length_of_none {β : Type} (l : List (String × β))
    (k : String) (v : β) (h : mapFind l k = none) :
    (mapInsert l k v).length = l.length + 1 := by
  induction l with
  | nil => simp [mapInsert]
  | cons p t ih =>
    by_cases hp : p.1 = k
    · simp [mapFind, hp] at h
    · simp only [mapFind, if_neg hp] at h
      simp only [mapInsert, if_neg hp, List.length_cons]
      rw [ih h]

/-! ## Message protocol (`pkg/p2p/message.go`)

The envelope is `{type, id, sender, timestamp, payload}`.  The payload is
`interface{}` in Go — an arbitrary JSON value once on the wire — so the
model carries it as a JSON value directly. -/

/-- A JSON value, the codomain of Go's `encoding/json`. -/
inductive Json where
  | null : Json
  | bool (b : Bool) : Json
  | num (q : ℚ) : Json
  | str (s : String) : Json
  | arr (elems : List Json) : Json
  | obj (fields : List (String × Json)) : Json

/-- The message envelope (`Message` in `message.go`); field `Type` of the
Go struct is rendered `msgType` (`Type` is a Lean keyword).  `timestamp`
is in seconds; `payload` is the embedded JSON value. -/
structure Message where
  msgType : String
  id : String
  sender : String
  timestamp : ℚ
  payload : Json

/-- `(m *Message) Validate() error`: fails when `type`, `id` or `sender`
is the empty string, in that order of checking. -/
def Message.Validate (m : Message) : Except String Unit :=
  if m.msgType = "" then .error "message type cannot be empty"
  else if m.id = "" then .error "message ID cannot be empty"
  else if m.sender = "" then .error "message sender cannot be empty"
  else .ok ()

/-- `(m *Message) Serialize() ([]byte, error)` = `json.Marshal(m)`,
modelled at the JSON-value level: the struct marshals to an object with
one field per struct tag, in struct order. -/
def Message.Serialize (m : Message) : Json :=
  .obj [("type", .str m.msgType), ("id", .str m.id),
        ("sender", .str m.sender), ("timestamp", .num m.timestamp),
        ("payload", m.payload)]

/-- Reading one string field the way `json.Unmarshal` fills a `string`
struct field: absent field → zero value `""`; non-string value → error. -/
def jsonGetString (fields : List (String × Json)) (key : String) :
    Except String String :=
  match mapFind fields key with
  | none => .ok ""
  | some (.str s) => .ok s
  | some _ => .error "cannot unmarshal into field of type string"

/-- Reading the timestamp field; absent → zero value. -/
def jsonGetNum (fields : List (String × Json)) (key : String) :
    Except String ℚ :=
  match mapFind fields key with
  | none => .ok 0
  | some (.num q) => .ok q
  | some _ => .error "cannot unmarshal into numeric field"

/-- `DeserializeMessage(data []byte) (*Message, error)` =
`json.Unmarshal(data, &msg)`, modelled on the parsed JSON value: the input
must be an object, and each recognised field must have the type of the
struct field it fills. -/
def DeserializeMessage (data : Json) : Except String Message :=
  match data with
  | .obj fields => do
      let t ← jsonGetString fields "type"
      let i ← jsonGetString fields "id"
      let s ← jsonGetString fields "sender"
      let ts ← jsonGetNum fields "timestamp"
      let payload := (mapFind fields "payload").getD .null
      .ok { msgType := t, id := i, sender := s, timestamp := ts,
            payload := payload }
  | _ => .error "cannot unmarshal into Go value of type p2p.Message"

/-! ## Connection pool (`pkg/p2p/pool.go`)

Only the connection side of the pool is capacity-checked; the claims are
about `AddConnection`, so the peer table of the pool is not re-modelled
here. -/

/-- The fields of `p2p.Connection` that the pool logic reads (the socket
handle, timestamps and mutex are irrelevant to capacity). -/
structure Connection where
  id : String
  peerId : String
  address : String
deriving DecidableEq

/-- `p2p.ConnectionPool`: the bounded connection registry. -/
structure ConnectionPool where
  maxConnections : Nat
  connections : List (String × Connection)
deriving DecidableEq

/-- `(cp *ConnectionPool) AddConnection(conn *Connection) error`: reject
when the pool already holds `maxConnections` connections (leaving the
receiver untouched), otherwise store the connection under its id
(`cp.connections[conn.ID] = conn`, a map assignment — it overwrites an
entry that has the same id).  The result pairs the updated pool (the
mutated receiver) with the returned `error`. -/
def ConnectionPool.AddConnection (cp : ConnectionPool) (conn : Connection) :
    ConnectionPool × Except String Unit :=
  if cp.connections.length ≥ cp.maxConnections then
    (cp, .error ("connection pool at maximum capacity (" ++
      toString cp.maxConnections ++ ")"))
  else
    ({ cp with connections := mapInsert cp.connections conn.id conn },
      .ok ())

/-- `(cp *ConnectionPool) ConnectionCount() int`. -/
def ConnectionPool.ConnectionCount (cp : ConnectionPool) : Nat :=
  cp.connections.length

/-! ## Topology manager (`pkg/p2p/topology/manager.go`) -/

/-- `topology.ConnectionQuality`.  `latency` and `jitter` are in seconds
(`time.Duration` divided by `time.Second` wherever the code uses them
arithmetically); `bandwidth` in Mbps; `packetLoss` a percentage. -/
structure ConnectionQuality where
  latency : ℚ
  bandwidth : ℚ
  packetLoss : ℚ
  jitter : ℚ
  lastUpdate : Int
deriving DecidableEq

/-- `topology.PeerInfo`.  Every field is a Go value type (strings, struct
of values, bool, float64, int): a struct assignment copies all of it. -/
structure PeerInfo where
  id : String
  address : String
  quality : ConnectionQuality
  lastSeen : Int
  connected : Bool
  reputation : ℚ
  load : Int
deriving DecidableEq

/-- `topology.Peer`, the argument of `AddPeer`. -/
structure TopologyPeer where
  id : String
  address : String
  version : String
  lastSeen : Int
deriving DecidableEq

/-- `topology.Manager`.  The peer map's association list order stands for
the Go map's (randomised) iteration order. -/
structure Manager where
  maxPeers : Int
  meshThreshold : Int
  peers : List (String × PeerInfo)
deriving DecidableEq

/-- The `PeerInfo` that `AddPeer` builds: defaults for everything except
identity, with `Reputation: 0.0`, `Connected: true`, `Load: 0` and the
fixed default quality (latency 1s, bandwidth 1.0 Mbps, loss 0,
jitter 10ms). -/
def defaultPeerInfo (peer : TopologyPeer) (now : Int) : PeerInfo :=
  { id := peer.id, address := peer.address, lastSeen := now,
    connected := true, reputation := 0, load := 0,
    quality := { latency := 1, bandwidth := 1, packetLoss := 0,
                 jitter := 1/100, lastUpdate := now } }

/-- `(t *Manager) AddPeer(peer Peer)`: builds a fresh default `PeerInfo`
and stores it with `t.peers[peer.ID] = info`, regardless of any existing
entry.  `now` is the `time.Now()` of the call. -/
def Manager.AddPeer (t : Manager) (peer : TopologyPeer) (now : Int) :
    Manager :=
  { t with peers := mapInsert t.peers peer.id (defaultPeerInfo peer now) }

/-- `(t *Manager) RemovePeer(peerID string)`. -/
def Manager.RemovePeer (t : Manager) (peerID : String) : Manager :=
  { t with peers := mapErase t.peers peerID }

/-- `(t *Manager) GetPeerInfo(peerID string) (*PeerInfo, bool)`: looks the
peer up and returns (a pointer to) a fresh copy `info := *peer`. -/
def Manager.GetPeerInfo (t : Manager) (peerID : String) : Option PeerInfo :=
  mapFind t.peers peerID

/-- `(t *Manager) UpdatePeerReputation(peerID string, reputation float64)`:
stores the given value as-is on the existing entry (no clamping happens at
this level). -/
def Manager.UpdatePeerReputation (t : Manager) (peerID : String)
    (reputation : ℚ) : Manager :=
  match mapFind t.peers peerID with
  | none => t
  | some peer =>
      let updated := { peer with reputation := reputation }
      { t with peers := mapInsert t.peers peerID updated }

/-- `(t *Manager) UpdatePeerQuality(peerID string, quality ConnectionQuality)`. -/
def Manager.UpdatePeerQuality (t : Manager) (peerID : String)
    (quality : ConnectionQuality) (now : Int) : Manager :=
  match mapFind t.peers peerID with
  | none => t
  | some peer =>
      let updated := { peer with quality := quality, lastSeen := now }
      { t with peers := mapInsert t.peers peerID updated }

/-- `(t *Manager) calculateQualityScore(quality ConnectionQuality) float64`:
normalise the four metrics, combine with weights 0.3/0.3/0.2/0.2, cap the
total at 1.0 (`math.Min(totalScore, 1.0)` — there is no lower cap). -/
def Manager.calculateQualityScore (quality : ConnectionQuality) : ℚ :=
  let latencyScore := 1 / (1 + quality.latency)
  let bandwidthScore := min (quality.bandwidth / 100) 1
  let packetLossScore := 1 - min (quality.packetLoss / 100) 1
  let jitterScore := 1 / (1 + quality.jitter)
  let totalScore := latencyScore * (3/10) + bandwidthScore * (3/10) +
    packetLossScore * (2/10) + jitterScore * (2/10)
  min totalScore 1

/-- The ranking score of `GetBestPeers`:
`qualityScore*0.7 + info.Reputation*0.3`. -/
def bestPeerScore (info : PeerInfo) : ℚ :=
  Manager.calculateQualityScore info.quality * (7/10) +
    info.reputation * (3/10)

/-- The descending-score comparison that `sort.Slice` is run with
(`peerScores[i].score > peerScores[j].score`): an element may precede
another exactly when its score is not smaller. -/
def scoreGE (a b : String × ℚ) : Prop := b.2 ≤ a.2

instance : DecidableRel scoreGE := fun a b =>
  inferInstanceAs (Decidable (b.2 ≤ a.2))

instance : IsTotal (String × ℚ) scoreGE := ⟨fun a b => le_total b.2 a.2⟩

instance : IsTrans (String × ℚ) scoreGE :=
  ⟨fun _ _ _ hab hbc => le_trans hbc hab⟩

/-- `(t *Manager) GetBestPeers(n int) []string`: score every known peer,
sort the `(id, score)` pairs descending by score, return the first `n`
ids.  The iteration over the Go map visits `t.peers` in the order of the
association list (the model of the randomised iteration order of one run),
and `sort.Slice` — which promises nothing about the order of ties — is
instantiated with insertion sort, one sorted permutation it may produce. -/
def Manager.GetBestPeers (t : Manager) (n : Nat) : List String :=
  let peerScores := t.peers.map (fun p => (p.1, bestPeerScore p.2))
  let sorted := List.insertionSort scoreGE peerScores
  (sorted.take n).map Prod.fst

/-! ## Reputation system (`pkg/p2p/topology/reputation.go`)

`ReputationSystem` holds only a pointer to the `Manager`, so its update
operations are modelled as functions on `Manager`. -/

/-- `(rs *ReputationSystem) UpdateReputationBasedOnBehavior`: clamp the
behaviour score to [-1,1], blend `0.7·current + 0.3·score`, clamp the
result to [-1,1], store it via `UpdatePeerReputation`; no-op when the peer
is unknown. -/
def UpdateReputationBasedOnBehavior (m : Manager) (peerID : String)
    (behaviorScore : ℚ) : Manager :=
  let score := if behaviorScore < -1 then -1
    else if behaviorScore > 1 then 1 else behaviorScore
  match m.GetPeerInfo peerID with
  | none => m
  | some currentInfo =>
      let newReputation := currentInfo.reputation * (7/10) + score * (3/10)
      let newReputation := if newReputation < -1 then -1
        else if newReputation > 1 then 1 else newReputation
      m.UpdatePeerReputation peerID newReputation

/-- `(rs *ReputationSystem) UpdateReputationBasedOnPerformance`: boost the
success rate for responses under 100ms, penalise over 1s, rescale from
[0,1] to [-1,1], clamp, and feed into the behaviour update.
`responseTime` is in seconds. -/
def UpdateReputationBasedOnPerformance (m : Manager) (peerID : String)
    (successRate responseTime : ℚ) : Manager :=
  let performanceScore := successRate
  let performanceScore := if responseTime < 1/10 then
      performanceScore * (12/10)
    else if responseTime > 1 then performanceScore * (8/10)
    else performanceScore
  let scaledScore := performanceScore * 2 - 1
  let scaledScore := if scaledScore < -1 then -1
    else if scaledScore > 1 then 1 else scaledScore
  UpdateReputationBasedOnBehavior m peerID scaledScore

/-- `(rs *ReputationSystem) UpdateReputationBasedOnReliability`: weighted
average of uptime and delivery rate, rescaled to [-1,1], clamped, fed into
the behaviour update. -/
def UpdateReputationBasedOnReliability (m : Manager) (peerID : String)
    (uptimeRatio messageDeliveryRate : ℚ) : Manager :=
  let reliabilityScore := uptimeRatio * (6/10) + messageDeliveryRate * (4/10)
  let scaledScore := reliabilityScore * 2 - 1
  let scaledScore := if scaledScore < -1 then -1
    else if scaledScore > 1 then 1 else scaledScore
  UpdateReputationBasedOnBehavior m peerID scaledScore

/-- `(rs *ReputationSystem) DecayReputation`: move the reputation toward
neutral by `current·(1-decayRate)`, clamp to [-1,1], store; no-op when the
peer is unknown. -/
def DecayReputation (m : Manager) (peerID : String) (decayRate : ℚ) :
    Manager :=
  match m.GetPeerInfo peerID with
  | none => m
  | some currentInfo =>
      let newReputation := currentInfo.reputation * (1 - decayRate)
      let newReputation := if newReputation < -1 then -1
        else if newReputation > 1 then 1 else newReputation
      m.UpdatePeerReputation peerID newReputation

/-- The reputation invariant of the data model: every stored reputation
lies in [-1, 1]. -/
abbrev repInRange (m : Manager) : Prop :=
  ∀ pr ∈ m.peers, -1 ≤ pr.2.reputation ∧ pr.2.reputation ≤ 1

/-- One reputation update of the reputation system, with its call
parameters. -/
inductive RepUpdate where
  | behavior (peerID : String) (score : ℚ)
  | performance (peerID : String) (successRate responseTime : ℚ)
  | reliability (peerID : String) (uptime delivery : ℚ)
  | decay (peerID : String) (rate : ℚ)

/-- Running one reputation update against the manager. -/
def applyRepUpdate (m : Manager) : RepUpdate → Manager
  | .behavior peerID score => UpdateReputationBasedOnBehavior m peerID score
  | .performance peerID sr rt =>
      UpdateReputationBasedOnPerformance m peerID sr rt
  | .reliability peerID up del =>
      UpdateReputationBasedOnReliability m peerID up del
  | .decay peerID rate => DecayReputation m peerID rate

/-! ## Handshake verification (`pkg/p2p/crypto/handshake.go`)

`VerifyHandshakeMessage` decodes the embedded public key
(`UnmarshalPublicKey`), re-serialises the signed fields (the message with
the signature field left out), verifies the signature against the decoded
key (`VerifySignature`), and finally checks the timestamp against a 300s
window.  The RSA primitives are abstracted as parameters of type `K` for
keys with a decoder and a signature checker. -/

/-- `crypto.HandshakeMessage`; byte slices are lists of bytes. -/
structure HandshakeMessage where
  nodeId : String
  publicKey : List Nat
  timestamp : Int
  signature : List Nat
  sessionKey : List Nat
deriving DecidableEq

/-- The data that is signed: the JSON encoding of the message with the
signature zeroed out (`msgCopy` in the code), abstracted as the tuple of
the remaining fields. -/
def HandshakeMessage.signedPayload (msg : HandshakeMessage) :
    String × List Nat × Int × List Nat :=
  (msg.nodeId, msg.publicKey, msg.timestamp, msg.sessionKey)

/-- The failure cases of `VerifyHandshakeMessage` (for a non-nil message),
in the order they are checked. -/
inductive HandshakeError where
  | badKey
  | badSignature
  | expired
deriving DecidableEq

/-- `(h *HandshakeManager) VerifyHandshakeMessage(msg *HandshakeMessage) error`:
key decode, then signature check, then the timestamp window
`currentTime-msg.Timestamp > 300 || msg.Timestamp-currentTime > 300`. -/
def VerifyHandshakeMessage {K : Type}
    (unmarshalPublicKey : List Nat → Option K)
    (verifySignature : String × List Nat × Int × List Nat → List Nat → K → Bool)
    (now : Int) (msg : HandshakeMessage) : Except HandshakeError Unit :=
  match unmarshalPublicKey msg.publicKey with
  | none => .error .badKey
  | some pubKey =>
      if verifySignature msg.signedPayload msg.signature pubKey then
        if now - msg.timestamp > 300 ∨ msg.timestamp - now > 300 then
          .error .expired
        else .ok ()
      else .error .badSignature

/-! ## Secure handshake protocol (`network.go`, `performSecureHandshake`)

The protocol steps of `performSecureHandshake` are modelled as a trace of
events, with the outcomes of the IO steps (receive, create, send) given up
front by an environment.  `registered id` stands for the call
`n.registerPeer(id, connection)` (which puts the peer into the peer table,
the pool and the topology manager). -/

/-- Observable steps of one `performSecureHandshake` run. -/
inductive HsEvent where
  | received (m : HandshakeMessage)
  | verified (m : HandshakeMessage)
  | registered (peerID : String)
  | sentHandshake
deriving DecidableEq

/-- Environment of one handshake run: the crypto oracles, the clock, and
the outcomes of the fallible IO steps (`none` / `false` = that step
errors). -/
structure HsEnv (K : Type) where
  unmarshalPublicKey : List Nat → Option K
  verifySignature : String × List Nat × Int × List Nat → List Nat → K → Bool
  now : Int
  recvMsg : Option HandshakeMessage
  createMsg : Option HandshakeMessage
  sendOk : Bool

/-- Whether `n.handshakeMgr.VerifyHandshakeMessage(m)` succeeds in this
environment. -/
def HsEnv.verifies {K : Type} (env : HsEnv K) (m : HandshakeMessage) : Bool :=
  (VerifyHandshakeMessage env.unmarshalPublicKey env.verifySignature
    env.now m).isOk

/-- `(n *Network) performSecureHandshake(conn, incoming, connection)`:
incoming side — receive, verify, register, create + send response;
outgoing side — create + send, receive response, verify, register.  The
returned trace lists the completed steps in program order. -/
def performSecureHandshake {K : Type} (env : HsEnv K) (incoming : Bool) :
    Except String Unit × List HsEvent :=
  if incoming then
    match env.recvMsg with
    | none => (.error "failed to receive handshake", [])
    | some m =>
        if env.verifies m then
          let tr := [.received m, .verified m, .registered m.nodeId]
          match env.createMsg with
          | none => (.error "failed to create response handshake", tr)
          | some _ =>
              if env.sendOk then (.ok (), tr ++ [.sentHandshake])
              else (.error "failed to send response handshake", tr)
        else (.error "handshake verification failed", [.received m])
  else
    match env.createMsg with
    | none => (.error "failed to create handshake", [])
    | some _ =>
        if env.sendOk then
          match env.recvMsg with
          | none => (.error "failed to receive response handshake",
              [.sentHandshake])
          | some m =>
              if env.verifies m then
                (.ok (), [.sentHandshake, .received m, .verified m,
                  .registered m.nodeId])
              else (.error "response handshake verification failed",
                [.sentHandshake, .received m])
        else (.error "failed to send handshake", [])

/-! ## C7 / C8 — message validation and round-trip -/

/-- C7: `Validate(m)` fails exactly when at least one of the `type`, `id`
and `sender` fields is the empty string, and succeeds otherwise. -/
theorem validate_fails_iff_empty_field (m : Message) :
    m.Validate.isOk = false ↔
      (m.msgType = "" ∨ m.id = "" ∨ m.sender = "") := by
  by_cases ht : m.msgType = "" <;> by_cases hi : m.id = "" <;>
    by_cases hs : m.sender = "" <;>
      simp [Message.Validate, Except.isOk, ht, hi, hs] <;> try rfl

/-- C8: serialising a valid message and deserialising the result succeeds
and gives back the same `type`, `id` and `sender`. -/
theorem serialize_roundtrip_preserves_envelope (m : Message)
    (_h : m.Validate = .ok ()) :
    ∃ m', DeserializeMessage m.Serialize = .ok m' ∧
      m'.msgType = m.msgType ∧ m'.id = m.id ∧ m'.sender = m.sender :=
  ⟨m, rfl, rfl, rfl, rfl⟩

/-- Witness for C8 at a concrete valid message. -/
theorem serialize_roundtrip_witness :
    ∃ m', DeserializeMessage
        (Message.Serialize ⟨"HELLO", "HELLO-17", "node-a", 12, .null⟩) =
        .ok m' ∧
      m'.msgType = "HELLO" ∧ m'.id = "HELLO-17" ∧ m'.sender = "node-a" :=
  serialize_roundtrip_preserves_envelope
    ⟨"HELLO", "HELLO-17", "node-a", 12, .null⟩ rfl

/-! ## C6 — `AddConnection` capacity behaviour -/

/-- C6, counterexample to the claim as stated: in a pool of capacity 2
holding one connection with id `"a"` (so strictly below the cap), adding a
connection whose id is also `"a"` succeeds — but the map assignment
overwrites the entry, so the connection count stays 1 instead of growing
to 2. -/
theorem addConnection_below_cap_not_increment :
    (ConnectionPool.AddConnection ⟨2, [("a", ⟨"a", "p1", "x"⟩)]⟩
        ⟨"a", "p2", "y"⟩).2 = .ok () ∧
    ConnectionPool.ConnectionCount ⟨2, [("a", ⟨"a", "p1", "x"⟩)]⟩ <
      (⟨2, [("a", ⟨"a", "p1", "x"⟩)]⟩ : ConnectionPool).maxConnections ∧
    (ConnectionPool.AddConnection ⟨2, [("a", ⟨"a", "p1", "x"⟩)]⟩
        ⟨"a", "p2", "y"⟩).1.ConnectionCount ≠
      ConnectionPool.ConnectionCount ⟨2, [("a", ⟨"a", "p1", "x"⟩)]⟩ + 1 := by
  refine ⟨rfl, by decide, ?_⟩
  decide

/-- C6 as amended: at (or beyond) the cap, `AddConnection` returns the
capacity error and leaves the pool — hence its connection count —
unchanged; strictly below the cap and with a connection id not already in
the pool, it succeeds and the count grows by one. -/
theorem addConnection_capacity_spec (cp : ConnectionPool)
    (conn : Connection) :
    (cp.ConnectionCount ≥ cp.maxConnections →
      (cp.AddConnection conn).1 = cp ∧
      (cp.AddConnection conn).2 = .error ("connection pool at maximum capacity ("
        ++ toString cp.maxConnections ++ ")")) ∧
    (cp.ConnectionCount < cp.maxConnections →
      mapFind cp.connections conn.id = none →
      (cp.AddConnection conn).2 = .ok () ∧
      (cp.AddConnection conn).1.ConnectionCount = cp.ConnectionCount + 1) := by
  constructor
  · intro hfull
    simp [ConnectionPool.AddConnection, ConnectionPool.ConnectionCount] at hfull ⊢
    simp [hfull]
  · intro hroom hfresh
    have hlt : ¬ cp.connections.length ≥ cp.maxConnections := by
      simp only [ConnectionPool.ConnectionCount] at hroom
      omega
    constructor
    · simp [ConnectionPool.AddConnection, hlt]
    · simp [ConnectionPool.AddConnection, hlt,
        ConnectionPool.ConnectionCount,
        mapInsert_length_of_none cp.connections conn.id conn hfresh]

/-- Witness for the amended C6, exercising both branches at concrete
pools: a full pool of capacity 1 rejects and keeps its single connection,
and a pool of capacity 2 with one connection accepts a fresh id and grows
to two connections. -/
theorem addConnection_capacity_witness :
    ((ConnectionPool.AddConnection ⟨1, [("a", ⟨"a", "p1", "x"⟩)]⟩
        ⟨"b", "p2", "y"⟩).1 = ⟨1, [("a", ⟨"a", "p1", "x"⟩)]⟩ ∧
      (ConnectionPool.AddConnection ⟨1, [("a", ⟨"a", "p1", "x"⟩)]⟩
        ⟨"b", "p2", "y"⟩).2 = .error "connection pool at maximum capacity (1)") ∧
    ((ConnectionPool.AddConnection ⟨2, [("a", ⟨"a", "p1", "x"⟩)]⟩
        ⟨"b", "p2", "y"⟩).2 = .ok () ∧
      (ConnectionPool.AddConnection ⟨2, [("a", ⟨"a", "p1", "x"⟩)]⟩
        ⟨"b", "p2", "y"⟩).1.ConnectionCount = 2) := by
  constructor
  · have h := (addConnection_capacity_spec ⟨1, [("a", ⟨"a", "p1", "x"⟩)]⟩
      ⟨"b", "p2", "y"⟩).1 (by decide)
    exact ⟨h.1, h.2⟩
  · have h := (addConnection_capacity_spec ⟨2, [("a", ⟨"a", "p1", "x"⟩)]⟩
      ⟨"b", "p2", "y"⟩).2 (by decide) (by decide)
    exact ⟨h.1, h.2⟩

/-! ## C9 — `AddPeer` replaces the stored entry wholesale -/

/-- C9: adding a peer whose id is already present stores a brand-new
default `PeerInfo` — reputation 0, connected, zero load, default quality
(latency 1s, bandwidth 1 Mbps, loss 0, jitter 10ms = 1/100 s) — with no
dependence on the previously stored entry. -/
theorem addPeer_resets_existing_entry (t : Manager) (p : TopologyPeer)
    (now : Int) (_h : (t.GetPeerInfo p.id).isSome = true) :
    (t.AddPeer p now).GetPeerInfo p.id = some (defaultPeerInfo p now) ∧
    (defaultPeerInfo p now).reputation = 0 ∧
    (defaultPeerInfo p now).connected = true ∧
    (defaultPeerInfo p now).load = 0 ∧
    (defaultPeerInfo p now).quality =
      ⟨1, 1, 0, 1/100, now⟩ := by
  refine ⟨?_, rfl, rfl, rfl, rfl⟩
  simp [Manager.AddPeer, Manager.GetPeerInfo, mapFind_mapInsert_self]

/-- Witness for C9: re-adding the known peer `"a"`, which had accumulated
reputation 1/2 and a non-default quality, resets its entry to the
defaults. -/
theorem addPeer_resets_witness :
    (Manager.AddPeer
        ⟨50, 10, [("a", ⟨"a", "addr0", ⟨3, 7, 2, 1/5, 4⟩, 5, false, 1/2, 9⟩)]⟩
        ⟨"a", "addr1", "1.0.0", 6⟩ 7).GetPeerInfo "a" =
      some (defaultPeerInfo ⟨"a", "addr1", "1.0.0", 6⟩ 7) ∧
    (defaultPeerInfo ⟨"a", "addr1", "1.0.0", 6⟩ 7).reputation = 0 := by
  have h := addPeer_resets_existing_entry
    ⟨50, 10, [("a", ⟨"a", "addr0", ⟨3, 7, 2, 1/5, 4⟩, 5, false, 1/2, 9⟩)]⟩
    ⟨"a", "addr1", "1.0.0", 6⟩ 7 (by decide)
  exact ⟨h.1, h.2.1⟩

/-! ## C10 — `GetPeerInfo` hands out a copy -/

/-- The code of `GetPeerInfo` ends in `info := *peer; return &info`: the
returned pointer refers to a fresh stack copy, and every field of
`PeerInfo` is a Go value type, so a caller's writes through that pointer
touch only the copy.  `f` is the caller's mutation of the returned value;
the pair is (manager after the caller's writes, what the caller now holds). -/
def Manager.GetPeerInfoThenMutate (t : Manager) (peerID : String)
    (f : PeerInfo → PeerInfo) : Manager × Option PeerInfo :=
  match mapFind t.peers peerID with
  | none => (t, none)
  | some peer => (t, some (f peer))

/-- C10: mutating the `PeerInfo` returned by `GetPeerInfo` leaves the
manager untouched — the caller holds the mutated copy of the stored
record, while later `GetPeerInfo` and `GetBestPeers` calls still see the
original state. -/
theorem getPeerInfo_returns_copy (t : Manager) (peerID : String)
    (f : PeerInfo → PeerInfo) :
    (t.GetPeerInfoThenMutate peerID f).1 = t ∧
    (t.GetPeerInfoThenMutate peerID f).2 = (t.GetPeerInfo peerID).map f ∧
    (∀ id, (t.GetPeerInfoThenMutate peerID f).1.GetPeerInfo id =
      t.GetPeerInfo id) ∧
    (∀ n, (t.GetPeerInfoThenMutate peerID f).1.GetBestPeers n =
      t.GetBestPeers n) := by
  unfold Manager.GetPeerInfoThenMutate Manager.GetPeerInfo
  cases h : mapFind t.peers peerID <;>
    simp [h]

/-! ## C2 — reputation stays in [-1, 1] -/

theorem clamp_mem_Icc (x : ℚ) :
    -1 ≤ (if x < -1 then -1 else if x > 1 then 1 else x) ∧
      (if x < -1 then -1 else if x > 1 then 1 else x) ≤ 1 := by
  split_ifs with h1 h2 <;> constructor <;> linarith

theorem repInRange_mapInsert (l : List (String × PeerInfo)) (k : String)
    (v : PeerInfo) (hv : -1 ≤ v.reputation ∧ v.reputation ≤ 1)
    (hl : ∀ pr ∈ l, -1 ≤ pr.2.reputation ∧ pr.2.reputation ≤ 1) :
    ∀ pr ∈ mapInsert l k v,
      -1 ≤ pr.2.reputation ∧ pr.2.reputation ≤ 1 := by
  induction l with
  | nil =>
    intro pr hpr
    simp [mapInsert] at hpr
    subst hpr; exact hv
  | cons p t ih =>
    intro pr hpr
    by_cases hp : p.1 = k
    · simp [mapInsert, hp] at hpr
      rcases hpr with hpr | hpr
      · subst hpr; exact hv
      · exact hl pr (List.mem_cons_of_mem p hpr)
    · simp only [mapInsert, if_neg hp, List.mem_cons] at hpr
      rcases hpr with hpr | hpr
      · subst hpr; exact hl _ (List.mem_cons_self _ _)
      · exact ih (fun q hq => hl q (List.mem_cons_of_mem p hq)) pr hpr

theorem updatePeerReputation_repInRange (m : Manager) (peerID : String)
    (rep : ℚ) (hrep : -1 ≤ rep ∧ rep ≤ 1) (h : repInRange m) :
    repInRange (m.UpdatePeerReputation peerID rep) := by
  unfold Manager.UpdatePeerReputation
  cases hfind : mapFind m.peers peerID with
  | none => exact h
  | some peer =>
    intro pr hpr
    exact repInRange_mapInsert m.peers peerID _ hrep h pr hpr

theorem behavior_repInRange (m : Manager) (peerID : String) (score : ℚ)
    (h : repInRange m) :
    repInRange (UpdateReputationBasedOnBehavior m peerID score) := by
  unfold UpdateReputationBasedOnBehavior
  cases hfind : m.GetPeerInfo peerID with
  | none => exact h
  | some currentInfo =>
    exact updatePeerReputation_repInRange m peerID _ (clamp_mem_Icc _) h

theorem decay_repInRange (m : Manager) (peerID : String) (rate : ℚ)
    (h : repInRange m) : repInRange (DecayReputation m peerID rate) := by
  unfold DecayReputation
  cases hfind : m.GetPeerInfo peerID with
  | none => exact h
  | some currentInfo =>
    exact updatePeerReputation_repInRange m peerID _ (clamp_mem_Icc _) h

/-- C2: starting from any manager whose stored reputations are all in
[-1, 1] (as they are when peers are added: `AddPeer` starts at 0), any
sequence of reputation-system updates — behaviour smoothing, performance,
reliability, decay, each routed through `Manager.UpdatePeerReputation`
with its clamped value — keeps every stored reputation in [-1, 1]. -/
theorem reputation_updates_stay_in_range (updates : List RepUpdate)
    (m : Manager) (h : repInRange m) :
    repInRange (updates.foldl applyRepUpdate m) := by
  induction updates generalizing m with
  | nil => exact h
  | cons u rest ih =>
    refine ih (applyRepUpdate m u) ?_
    cases u with
    | behavior peerID score => exact behavior_repInRange m peerID score h
    | performance peerID sr rt =>
      exact behavior_repInRange m peerID _ h
    | reliability peerID up del =>
      exact behavior_repInRange m peerID _ h
    | decay peerID rate => exact decay_repInRange m peerID rate h

/-- Witness for C2: a freshly added peer (reputation 0) put through a
misbehaviour report, a decay, an out-of-range behaviour signal, a
performance update and a reliability update still has its reputation in
[-1, 1]. -/
theorem reputation_updates_witness :
    repInRange (List.foldl applyRepUpdate
      ⟨50, 10, [("a", defaultPeerInfo ⟨"a", "x", "1.0.0", 0⟩ 0)]⟩
      [.behavior "a" (-1), .decay "a" (1/2), .behavior "a" 5,
       .performance "a" 2 (1/50), .reliability "a" 1 1]) :=
  reputation_updates_stay_in_range
    [.behavior "a" (-1), .decay "a" (1/2), .behavior "a" 5,
     .performance "a" 2 (1/50), .reliability "a" 1 1]
    ⟨50, 10, [("a", defaultPeerInfo ⟨"a", "x", "1.0.0", 0⟩ 0)]⟩
    (by decide)

/-! ## C3 — quality score range -/

/-- C3, counterexample to the claim as stated: the code caps the combined
score at 1.0 from above but never from below, so a (nonsensical but
type-correct) negative bandwidth drives the score below 0: with zero
latency, loss and jitter and bandwidth −1000 Mbps the score is −2.3. -/
theorem qualityScore_below_zero :
    Manager.calculateQualityScore ⟨0, -1000, 0, 0, 0⟩ = -23/10 ∧
    ¬ (0 ≤ Manager.calculateQualityScore ⟨0, -1000, 0, 0, 0⟩ ∧
       Manager.calculateQualityScore ⟨0, -1000, 0, 0, 0⟩ ≤ 1) := by
  constructor
  · norm_num [Manager.calculateQualityScore, min_def]
  · norm_num [Manager.calculateQualityScore, min_def]

/-- C3 as amended: for every quality input whose latency, bandwidth,
packet loss and jitter are nonnegative — all are physical quantities; Go's
`time.Duration` and `float64` merely fail to rule the negative values out —
the quality score lies in [0, 1]. -/
theorem qualityScore_in_unit_interval (q : ConnectionQuality)
    (hl : 0 ≤ q.latency) (hb : 0 ≤ q.bandwidth)
    (hp : 0 ≤ q.packetLoss) (hj : 0 ≤ q.jitter) :
    0 ≤ Manager.calculateQualityScore q ∧
      Manager.calculateQualityScore q ≤ 1 := by
  have hlat : (0:ℚ) < 1 + q.latency := by linarith
  have hjit : (0:ℚ) < 1 + q.jitter := by linarith
  have hL0 : (0:ℚ) ≤ 1 / (1 + q.latency) := by positivity
  have hL1 : 1 / (1 + q.latency) ≤ 1 := by
    rw [div_le_one hlat]; linarith
  have hJ0 : (0:ℚ) ≤ 1 / (1 + q.jitter) := by positivity
  have hJ1 : 1 / (1 + q.jitter) ≤ 1 := by
    rw [div_le_one hjit]; linarith
  have hB0 : (0:ℚ) ≤ min (q.bandwidth / 100) 1 :=
    le_min (by positivity) zero_le_one
  have hB1 : min (q.bandwidth / 100) 1 ≤ 1 := min_le_right _ _
  have hP0 : (0:ℚ) ≤ min (q.packetLoss / 100) 1 :=
    le_min (by positivity) zero_le_one
  have hP1 : min (q.packetLoss / 100) 1 ≤ 1 := min_le_right _ _
  unfold Manager.calculateQualityScore
  constructor
  · refine le_min ?_ zero_le_one
    nlinarith
  · exact min_le_right _ _

/-- Witness for the amended C3 at the default peer quality. -/
theorem qualityScore_witness :
    0 ≤ Manager.calculateQualityScore ⟨1, 1, 0, 1/100, 0⟩ ∧
      Manager.calculateQualityScore ⟨1, 1, 0, 1/100, 0⟩ ≤ 1 :=
  qualityScore_in_unit_interval ⟨1, 1, 0, 1/100, 0⟩
    (by norm_num) (by norm_num) (by norm_num) (by norm_num)

/-! ## C1 — `GetBestPeers` ranking -/

/-- C1, counterexample to the determinism part of the claim: two managers
holding the same peer set — the two association lists are permutations of
one another, i.e. the same Go map seen in two of its (randomised)
iteration orders — with two peers of equal score return different lists,
so the output is not a function of the peer set alone. -/
theorem getBestPeers_not_set_deterministic :
    ([("a", (⟨"a", "x", ⟨0, 0, 0, 0, 0⟩, 0, true, 0, 0⟩ : PeerInfo)),
      ("b", (⟨"b", "y", ⟨0, 0, 0, 0, 0⟩, 0, true, 0, 0⟩ : PeerInfo))].Perm
     [("b", (⟨"b", "y", ⟨0, 0, 0, 0, 0⟩, 0, true, 0, 0⟩ : PeerInfo)),
      ("a", (⟨"a", "x", ⟨0, 0, 0, 0, 0⟩, 0, true, 0, 0⟩ : PeerInfo))]) ∧
    Manager.GetBestPeers
        ⟨50, 10, [("a", ⟨"a", "x", ⟨0, 0, 0, 0, 0⟩, 0, true, 0, 0⟩),
                  ("b", ⟨"b", "y", ⟨0, 0, 0, 0, 0⟩, 0, true, 0, 0⟩)]⟩ 2 ≠
      Manager.GetBestPeers
        ⟨50, 10, [("b", ⟨"b", "y", ⟨0, 0, 0, 0, 0⟩, 0, true, 0, 0⟩),
                  ("a", ⟨"a", "x", ⟨0, 0, 0, 0, 0⟩, 0, true, 0, 0⟩)]⟩ 2 := by
  refine ⟨List.Perm.swap _ _ _, ?_⟩
  norm_num [Manager.GetBestPeers, bestPeerScore, Manager.calculateQualityScore,
    List.insertionSort, List.orderedInsert, scoreGE, min_def]
  decide

/-- C1 as amended: `GetBestPeers n` returns `min n |peers|` peer ids taken
from a sorting of the scored peers that is non-increasing in
`0.7·quality + 0.3·reputation`; the relative order of equal-score peers
follows the map iteration order, which Go randomises, so ties are not
broken deterministically. -/
theorem getBestPeers_sorted_spec (t : Manager) (n : Nat) :
    (t.GetBestPeers n).length = min n t.peers.length ∧
    ∃ l : List (String × ℚ),
      (t.peers.map (fun p => (p.1, bestPeerScore p.2))).Perm l ∧
      List.Sorted scoreGE l ∧
      t.GetBestPeers n = (l.take n).map Prod.fst := by
  constructor
  · have hlen : (List.insertionSort scoreGE
        (t.peers.map (fun p => (p.1, bestPeerScore p.2)))).length =
        t.peers.length := by
      rw [(List.perm_insertionSort scoreGE _).length_eq, List.length_map]
    simp [Manager.GetBestPeers, List.length_take, hlen]
  · refine ⟨List.insertionSort scoreGE
      (t.peers.map (fun p => (p.1, bestPeerScore p.2))),
      (List.perm_insertionSort scoreGE _).symm,
      List.sorted_insertionSort scoreGE _, ?_⟩
    rfl

/-! ## C4 — handshake timestamp window -/

/-- C4: `VerifyHandshakeMessage` fails whenever the message timestamp is
more than 300 seconds away from the current time, in either direction;
and a message whose embedded key decodes, whose signature verifies
against that key, and whose timestamp is within 300 seconds of now, is
accepted. -/
theorem verifyHandshake_timestamp_bound {K : Type}
    (uk : List Nat → Option K)
    (vs : String × List Nat × Int × List Nat → List Nat → K → Bool)
    (now : Int) (msg : HandshakeMessage) :
    (300 < |now - msg.timestamp| →
      (VerifyHandshakeMessage uk vs now msg).isOk = false) ∧
    (∀ k, uk msg.publicKey = some k →
      vs msg.signedPayload msg.signature k = true →
      |now - msg.timestamp| ≤ 300 →
      VerifyHandshakeMessage uk vs now msg = .ok ()) := by
  constructor
  · intro hfar
    unfold VerifyHandshakeMessage
    cases hk : uk msg.publicKey with
    | none => rfl
    | some k =>
      cases hsig : vs msg.signedPayload msg.signature k with
      | false =>
        simp [hsig]
        rfl
      | true =>
        have : now - msg.timestamp > 300 ∨ msg.timestamp - now > 300 := by
          rcases lt_abs.mp hfar with h | h
          · exact Or.inl h
          · right; omega
        simp [hsig, this]
        rfl
  · intro k hk hsig hnear
    have habs := abs_le.mp hnear
    have h1 : ¬ (now - msg.timestamp > 300 ∨ msg.timestamp - now > 300) := by
      push_neg
      omega
    unfold VerifyHandshakeMessage
    rw [hk]
    simp [hsig, h1]

/-- Witness for C4 with trusting oracles and `now = 1000`: a message
timestamped 301s in the past is rejected, one 301s in the future is
rejected, and one exactly 300s old is accepted. -/
theorem verifyHandshake_timestamp_witness :
    (VerifyHandshakeMessage (K := Unit) (fun _ => some ())
      (fun _ _ _ => true) 1000 ⟨"n", [], 699, [], []⟩).isOk = false ∧
    (VerifyHandshakeMessage (K := Unit) (fun _ => some ())
      (fun _ _ _ => true) 1000 ⟨"n", [], 1301, [], []⟩).isOk = false ∧
    VerifyHandshakeMessage (K := Unit) (fun _ => some ())
      (fun _ _ _ => true) 1000 ⟨"n", [], 700, [], []⟩ = .ok () := by
  refine ⟨?_, ?_, ?_⟩
  · exact (verifyHandshake_timestamp_bound (fun _ => some ())
      (fun _ _ _ => true) 1000 ⟨"n", [], 699, [], []⟩).1 (by decide)
  · exact (verifyHandshake_timestamp_bound (fun _ => some ())
      (fun _ _ _ => true) 1000 ⟨"n", [], 1301, [], []⟩).1 (by decide)
  · exact (verifyHandshake_timestamp_bound (fun _ => some ())
      (fun _ _ _ => true) 1000 ⟨"n", [], 700, [], []⟩).2 () rfl rfl
      (by decide)

/-! ## C5 — registration only after verification -/

theorem sublist_take3 {α : Type} (a b c d : α) :
    List.Sublist [a, b, c] [a, b, c, d] :=
  List.Sublist.cons₂ a (List.Sublist.cons₂ b
    (List.Sublist.cons₂ c (List.nil_sublist [d])))

theorem sublist_last2 {α : Type} (a b c d : α) :
    List.Sublist [c, d] [a, b, c, d] :=
  List.Sublist.cons a (List.Sublist.cons b
    (List.Sublist.cons₂ c (List.Sublist.cons₂ d List.Sublist.slnil)))

theorem sublist_headlast {α : Type} (a b c d : α) :
    List.Sublist [a, d] [a, b, c, d] :=
  List.Sublist.cons₂ a (List.Sublist.cons b
    (List.Sublist.cons c (List.Sublist.cons₂ d List.Sublist.slnil)))

theorem sublist_drop1 {α : Type} (a b c d : α) :
    List.Sublist [b, c, d] [a, b, c, d] :=
  List.Sublist.cons a (List.Sublist.refl _)

/-- C5: in every run of `performSecureHandshake`, (1) a peer is
registered only for a received handshake message that passed
verification, and the receive, verification and registration happen in
that order; (2) on the accepting (incoming) side the registration
precedes the sending of the response handshake; (3) on the dialing
(outgoing) side our handshake is sent before the peer is registered;
(4) if verification of the received message fails, no registration
happens at all. -/
theorem performSecureHandshake_registration_discipline {K : Type}
    (env : HsEnv K) (incoming : Bool) :
    (∀ id, HsEvent.registered id ∈ (performSecureHandshake env incoming).2 →
      ∃ m, env.recvMsg = some m ∧ m.nodeId = id ∧ env.verifies m = true ∧
        List.Sublist [HsEvent.received m, HsEvent.verified m,
          HsEvent.registered id] (performSecureHandshake env incoming).2) ∧
    (incoming = true →
      HsEvent.sentHandshake ∈ (performSecureHandshake env incoming).2 →
      ∀ id, HsEvent.registered id ∈ (performSecureHandshake env incoming).2 →
        List.Sublist [HsEvent.registered id, HsEvent.sentHandshake]
          (performSecureHandshake env incoming).2) ∧
    (incoming = false →
      ∀ id, HsEvent.registered id ∈ (performSecureHandshake env incoming).2 →
        List.Sublist [HsEvent.sentHandshake, HsEvent.registered id]
          (performSecureHandshake env incoming).2) ∧
    (∀ m, env.recvMsg = some m → env.verifies m = false →
      ∀ id, HsEvent.registered id ∉ (performSecureHandshake env incoming).2) := by
  cases incoming with
  | true =>
    cases hrecv : env.recvMsg with
    | none =>
      refine ⟨?_, ?_, ?_, ?_⟩ <;>
        simp [performSecureHandshake, hrecv]
    | some m0 =>
      cases hver : env.verifies m0 with
      | false =>
        refine ⟨?_, ?_, ?_, ?_⟩
        · intro id hid
          simp [performSecureHandshake, hrecv, hver] at hid
        · intro _ hsent
          simp [performSecureHandshake, hrecv, hver] at hsent
        · intro hfalse; cases hfalse
        · intro m hm hvm id hid
          simp [performSecureHandshake, hrecv, hver] at hid
      | true =>
        cases hcreate : env.createMsg with
        | none =>
          refine ⟨?_, ?_, ?_, ?_⟩
          · intro id hid
            simp [performSecureHandshake, hrecv, hver, hcreate] at hid
            subst hid
            exact ⟨m0, rfl, rfl, hver, by
              simp [performSecureHandshake, hrecv, hver, hcreate]⟩
          · intro _ hsent
            simp [performSecureHandshake, hrecv, hver, hcreate] at hsent
          · intro hfalse; cases hfalse
          · intro m hm hvm id hid
            injection hm with hmeq
            subst hmeq
            rw [hver] at hvm
            cases hvm
        | some resp =>
          cases hsend : env.sendOk with
          | false =>
            refine ⟨?_, ?_, ?_, ?_⟩
            · intro id hid
              simp [performSecureHandshake, hrecv, hver, hcreate, hsend] at hid
              subst hid
              exact ⟨m0, rfl, rfl, hver, by
                simp [performSecureHandshake, hrecv, hver, hcreate, hsend]⟩
            · intro _ hsent
              simp [performSecureHandshake, hrecv, hver, hcreate, hsend] at hsent
            · intro hfalse; cases hfalse
            · intro m hm hvm id hid
              injection hm with hmeq
              subst hmeq
              rw [hver] at hvm
              cases hvm
          | true =>
            refine ⟨?_, ?_, ?_, ?_⟩
            · intro id hid
              simp [performSecureHandshake, hrecv, hver, hcreate, hsend] at hid
              subst hid
              have := sublist_take3 (HsEvent.received m0) (.verified m0)
                (.registered m0.nodeId) .sentHandshake
              simpa [performSecureHandshake, hrecv, hver, hcreate, hsend]
                using ⟨m0, rfl, rfl, hver, this⟩
            · intro _ _ id hid
              simp [performSecureHandshake, hrecv, hver, hcreate, hsend] at hid
              subst hid
              have := sublist_last2 (HsEvent.received m0) (.verified m0)
                (.registered m0.nodeId) .sentHandshake
              simpa [performSecureHandshake, hrecv, hver, hcreate, hsend]
                using this
            · intro hfalse; cases hfalse
            · intro m hm hvm id hid
              injection hm with hmeq
              subst hmeq
              rw [hver] at hvm
              cases hvm
  | false =>
    cases hcreate : env.createMsg with
    | none =>
      refine ⟨?_, ?_, ?_, ?_⟩ <;>
        simp [performSecureHandshake, hcreate]
    | some ours =>
      cases hsend : env.sendOk with
      | false =>
        refine ⟨?_, ?_, ?_, ?_⟩ <;>
          simp [performSecureHandshake, hcreate, hsend]
      | true =>
        cases hrecv : env.recvMsg with
        | none =>
          refine ⟨?_, ?_, ?_, ?_⟩ <;>
            simp [performSecureHandshake, hcreate, hsend, hrecv]
        | some m0 =>
          cases hver : env.verifies m0 with
          | false =>
            refine ⟨?_, ?_, ?_, ?_⟩
            · intro id hid
              simp [performSecureHandshake, hcreate, hsend, hrecv, hver] at hid
            · intro hfalse; cases hfalse
            · intro _ id hid
              simp [performSecureHandshake, hcreate, hsend, hrecv, hver] at hid
            · intro m hm hvm id hid
              simp [performSecureHandshake, hcreate, hsend, hrecv, hver] at hid
          | true =>
            refine ⟨?_, ?_, ?_, ?_⟩
            · intro id hid
              simp [performSecureHandshake, hcreate, hsend, hrecv, hver] at hid
              subst hid
              have := sublist_drop1 HsEvent.sentHandshake (.received m0)
                (.verified m0) (.registered m0.nodeId)
              simpa [performSecureHandshake, hcreate, hsend, hrecv, hver]
                using ⟨m0, rfl, rfl, hver, this⟩
            · intro hfalse; cases hfalse
            · intro _ id hid
              simp [performSecureHandshake, hcreate, hsend, hrecv, hver] at hid
              subst hid
              have := sublist_headlast HsEvent.sentHandshake (.received m0)
                (.verified m0) (.registered m0.nodeId)
              simpa [performSecureHandshake, hcreate, hsend, hrecv, hver]
                using this
            · intro m hm hvm id hid
              injection hm with hmeq
              subst hmeq
              rw [hver] at hvm
              cases hvm

/-- Witness for C5, both orientations at a concrete environment in which
every step succeeds: the accepting side registers after verifying and
before sending, the dialing side sends before registering. -/
theorem performSecureHandshake_witness :
    List.Sublist
      [HsEvent.received ⟨"peer", [], 0, [], []⟩,
       HsEvent.verified ⟨"peer", [], 0, [], []⟩,
       HsEvent.registered "peer"]
      (performSecureHandshake (K := Unit)
        ⟨fun _ => some (), fun _ _ _ => true, 0,
          some ⟨"peer", [], 0, [], []⟩, some ⟨"me", [], 0, [], []⟩, true⟩
        true).2 ∧
    List.Sublist [HsEvent.sentHandshake, HsEvent.registered "peer"]
      (performSecureHandshake (K := Unit)
        ⟨fun _ => some (), fun _ _ _ => true, 0,
          some ⟨"peer", [], 0, [], []⟩, some ⟨"me", [], 0, [], []⟩, true⟩
        false).2 := by
  constructor
  · have h := (performSecureHandshake_registration_discipline (K := Unit)
      ⟨fun _ => some (), fun _ _ _ => true, 0,
        some ⟨"peer", [], 0, [], []⟩, some ⟨"me", [], 0, [], []⟩, true⟩
      true).1 "peer" (by decide)
    rcases h with ⟨m, hm, hnode, _, hsub⟩
    cases hm
    exact hsub
  · exact (performSecureHandshake_registration_discipline (K := Unit)
      ⟨fun _ => some (), fun _ _ _ => true, 0,
        some ⟨"peer", [], 0, [], []⟩, some ⟨"me", [], 0, [], []⟩, true⟩
      false).2.2.1 rfl "peer" (by decide)

end SynapseX
